import Mathlib

/-! Shallow embedding of src/docker/mqbase-init.c (mqBase PID-1 supervisor):
credential resolution, secrets-file parsing, artifact construction, and the
monitor/shutdown loop, together with theorems settling the specification's
claims about that code. C strings are modelled as lists of characters;
every OS interaction (getenv, the random device, fopen results, crypt,
waitpid, signal delivery) is an explicit input of the embedded function. -/

namespace MqBase

/-- C strings, modelled as lists of characters. -/
abbrev CStr := List Char

/-- The 62-symbol alphabet of generate_password (source line 42). -/
def passCharset : CStr := ("ABCDEFGHIJKLMNOPQRSTUVWXYZabcdefghijklmnopqrstuvwxyz0123456789").data

/-- The 64-symbol alphabet of generate_salt (source line 68). -/
def saltCharset : CStr := ("ABCDEFGHIJKLMNOPQRSTUVWXYZabcdefghijklmnopqrstuvwxyz0123456789./").data

/-- Outcome of the OS interaction of one open of /dev/urandom: whether the
open succeeds, the value the single read call returns, the 32 bytes of the
buffer after that read (bytes beyond the amount actually read model the
uninitialised stack contents), and the byte stream the seeded PRNG would
produce in the srand fallback. -/
structure RandWorld where
  openOk : Bool
  readRet : Int
  rbuf : List Nat
  prng : List Nat
deriving DecidableEq

/-- generate_password (source lines 41-59). Both call sites pass a
zero-filled 256-byte buffer and len = 17, so the resulting C string is the
written characters, and is empty when nothing is written (open succeeded
but read returned 0 or an error). The charset index is rbuf[i] % 62. -/
def generate_password (w : RandWorld) (len : Nat) : CStr :=
  if w.openOk then
    if 0 < w.readRet then
      (List.range (len - 1)).map (fun i => passCharset.getD (w.rbuf.getD i 0 % 62) 'A')
    else []
  else
    (List.range (len - 1)).map (fun i => passCharset.getD (w.prng.getD i 0 % 62) 'A')

/-- generate_salt (source lines 67-80): like generate_password but over the
64-symbol alphabet and with no PRNG fallback at all: when the open fails,
or the read returns 0 or an error, nothing is written and the zero-filled
target region stays empty. -/
def generate_salt (w : RandWorld) (len : Nat) : CStr :=
  if w.openOk then
    if 0 < w.readRet then
      (List.range (len - 1)).map (fun i => saltCharset.getD (w.rbuf.getD i 0 % 64) 'A')
    else []
  else []

/-- write_file (source lines 82-89): 0 when fopen succeeds, -1 otherwise. -/
def write_file (openOk : Bool) : Int := if openOk then 0 else -1

/-- The trailing CR/LF strip of load_secrets_file (source lines 109-112):
all trailing newline and carriage-return characters are removed. -/
def trimCRLF (l : CStr) : CStr :=
  (l.reverse.dropWhile (fun c => decide (c = '\n' ∨ c = '\r'))).reverse

/-- The 12-character key compared by strncmp at source line 118. -/
def keyHTTP : CStr := ("MQBASE_USER=").data

/-- The 17-character key compared by strncmp at source line 123. -/
def keyMQTT : CStr := ("MQBASE_MQTT_USER=").data

/-- One fgets iteration of load_secrets_file (source lines 107-127). The
accumulator is the pair (file_mqtt_cred, file_http_cred); values copied by
strncpy are capped at 255 characters. -/
def secretsStep (acc : CStr × CStr) (line : CStr) : CStr × CStr :=
  let l := trimCRLF line
  if l = [] then acc
  else if l.headD ' ' = '#' then acc
  else if l.take 12 = keyHTTP then (acc.1, (l.drop 12).take 255)
  else if l.take 17 = keyMQTT then ((l.drop 17).take 255, acc.2)
  else acc

/-- load_secrets_file (source lines 102-130): none models a failed fopen of
/mosquitto/config/secrets.conf. Returns (found flag, file_mqtt_cred,
file_http_cred); the two globals start as empty strings (source 94-95). -/
def load_secrets_file (file : Option (List CStr)) : Bool × CStr × CStr :=
  match file with
  | none => (false, [], [])
  | some lines => (true, lines.foldl secretsStep ([], []))

/-- The first-colon split of setup_credentials (source lines 166-176 and
190-200): the credential is copied into a 256-byte buffer (truncating at
255), the copy is split at its first colon, the user is copied with a
63-byte cap and the secret with a 255-byte cap. When the truncated copy
has no colon the caller's current values (the defaults) are kept. -/
def parseUserPass (cred defUser defPass : CStr) : CStr × CStr :=
  let buf := cred.take 255
  if ':' ∈ buf then
    ((buf.takeWhile (fun c => decide (c ≠ ':'))).take 63,
     ((buf.dropWhile (fun c => decide (c ≠ ':'))).drop 1).take 255)
  else (defUser, defPass)

/-- Environment as seen by setup_credentials: raw getenv results. A present
but empty variable is modelled as some []. -/
structure SetupEnv where
  mqttCred : Option CStr
  httpCred : Option CStr
  version : Option CStr
  title : Option CStr
  logo : Option CStr
  favicon : Option CStr

/-- The remaining OS inputs consumed by setup_credentials: the secrets
file, one RandWorld per potential open of the random device (MQTT
password, HTTP password, salt), the crypt routine (none models a NULL
return), and the fopen outcome for each artifact file. -/
structure SetupWorld where
  secretsFile : Option (List CStr)
  mqttRand : RandWorld
  httpRand : RandWorld
  saltRand : RandWorld
  cryptFn : CStr → CStr → Option CStr
  wMqttJson : Bool
  wHtpasswd : Bool
  wAppConfig : Bool

/-- The stderr diagnostics of setup_credentials that the claims talk about:
the loaded-from-mounted-config line (source 178, 202) and the generated
credentials warning banner (source 182-187, 206-211). -/
inductive LogEvent
  | loadedFromFile (key : CStr)
  | banner (key user pass : CStr)
deriving DecidableEq

/-- Env var name used in the MQTT banner and log line. -/
def envKeyMQTT : CStr := ("MQBASE_MQTT_USER").data

/-- Env var name used in the HTTP banner and log line. -/
def envKeyHTTP : CStr := ("MQBASE_USER").data

/-- Source lines 145-149: the secrets file is read only when at least one
of the two credential env vars is absent. -/
def secretsTriple (env : SetupEnv) (w : SetupWorld) : Bool × CStr × CStr :=
  if env.mqttCred = none ∨ env.httpCred = none then load_secrets_file w.secretsFile
  else (false, [], [])

/-- Source lines 151-164 for one credential: a present env var (with any
value, even empty) is always selected; the file record is selected only
when the env var is absent, the file was loaded and the record is
non-empty. Returns (selected credential, from-file flag). -/
def pick (envc : Option CStr) (filec : CStr) (loaded : Bool) : Option CStr × Bool :=
  match envc with
  | none => if loaded = true ∧ filec ≠ [] then (some filec, true) else (none, false)
  | some s => (some s, false)

/-- Selection of the MQTT credential (source lines 152-157). -/
def mqttChoice (env : SetupEnv) (w : SetupWorld) : Option CStr × Bool :=
  pick env.mqttCred (secretsTriple env w).2.1 (secretsTriple env w).1

/-- Selection of the HTTP credential (source lines 159-164). -/
def httpChoice (env : SetupEnv) (w : SetupWorld) : Option CStr × Bool :=
  pick env.httpCred (secretsTriple env w).2.2 (secretsTriple env w).1

/-- Source lines 166-212 for one credential: when the selected string
exists and contains a colon it is parsed (emitting the from-file line when
applicable); otherwise the user defaults to admin and a fresh password is
generated, with the warning banner emitted once. Returns
(user, secret, stderr events). -/
def processCred (key : CStr) (cred : Option CStr) (fromFile : Bool) (rw : RandWorld) :
    CStr × CStr × List LogEvent :=
  match cred with
  | some s =>
    if ':' ∈ s then
      ((parseUserPass s (("admin").data) []).1, (parseUserPass s (("admin").data) []).2,
       if fromFile then [LogEvent.loadedFromFile key] else [])
    else
      ((("admin").data), generate_password rw 17,
       [LogEvent.banner key (("admin").data) (generate_password rw 17)])
  | none =>
      ((("admin").data), generate_password rw 17,
       [LogEvent.banner key (("admin").data) (generate_password rw 17)])

/-- Source line 216: the MQTT credentials JSON, snprintf into a 256-byte
buffer (hence truncation at 255 characters). -/
def mqttJsonContent (u p : CStr) : CStr :=
  (("\x7b\"username\":\"").data ++ u ++ ("\",\"password\":\"").data ++ p
    ++ ("\"\x7d").data).take 255

/-- Source lines 219-232: the htpasswd line. The 20-byte salt buffer is
initialised to the SHA-512 prefix and filled by generate_salt; on a
successful crypt the line is user:hash newline (512-byte buffer), otherwise
the plaintext fallback line (256-byte buffer). -/
def makeHtpasswd (user pass : CStr) (saltW : RandWorld)
    (cryptFn : CStr → CStr → Option CStr) : CStr :=
  let salt := ("$6$").data ++ generate_salt saltW 17
  match cryptFn pass salt with
  | some hashed => (user ++ ':' :: (hashed ++ ['\n'])).take 511
  | none => (user ++ ':' :: (("\x7bPLAIN\x7d").data ++ pass ++ ['\n'])).take 255

/-- Source lines 234-246: the app-config JSON from four optional env vars,
absent ones replaced by the empty string, snprintf into a 512-byte buffer. -/
def appConfigContent (v t l f : Option CStr) : CStr :=
  (("\x7b\"version\":\"").data ++ v.getD [] ++ ("\",\"title\":\"").data ++ t.getD []
    ++ ("\",\"logo\":\"").data ++ l.getD [] ++ ("\",\"favicon\":\"").data ++ f.getD []
    ++ ("\"\x7d").data).take 511

/-- An artifact file: the content the code builds and the write_file
return value (which the source computes and then discards). -/
structure Artifact where
  content : CStr
  writeRet : Int
deriving DecidableEq

/-- Everything observable about one run of setup_credentials. -/
structure SetupResult where
  mqttUser : CStr
  mqttPass : CStr
  httpUser : CStr
  httpPass : CStr
  mqttJson : Artifact
  htpasswd : Artifact
  appConfig : Artifact
  stderrLog : List LogEvent
  ret : Int

/-- Resolution of the MQTT credential (selection plus parse/generate). -/
def mqttResolved (env : SetupEnv) (w : SetupWorld) : CStr × CStr × List LogEvent :=
  processCred envKeyMQTT (mqttChoice env w).1 (mqttChoice env w).2 w.mqttRand

/-- Resolution of the HTTP credential (selection plus parse/generate). -/
def httpResolved (env : SetupEnv) (w : SetupWorld) : CStr × CStr × List LogEvent :=
  processCred envKeyHTTP (httpChoice env w).1 (httpChoice env w).2 w.httpRand

/-- setup_credentials (source lines 133-249). The write_file return values
are recorded with each artifact but, exactly as in the source, do not
influence the function's return value, which is the constant 0 of source
line 248. -/
def setup_credentials (env : SetupEnv) (w : SetupWorld) : SetupResult where
  mqttUser := (mqttResolved env w).1
  mqttPass := (mqttResolved env w).2.1
  httpUser := (httpResolved env w).1
  httpPass := (httpResolved env w).2.1
  mqttJson :=
    ⟨mqttJsonContent (mqttResolved env w).1 (mqttResolved env w).2.1, write_file w.wMqttJson⟩
  htpasswd :=
    ⟨makeHtpasswd (httpResolved env w).1 (httpResolved env w).2.1 w.saltRand w.cryptFn,
     write_file w.wHtpasswd⟩
  appConfig :=
    ⟨appConfigContent env.version env.title env.logo env.favicon, write_file w.wAppConfig⟩
  stderrLog := (mqttResolved env w).2.2 ++ (httpResolved env w).2.2
  ret := 0

/-- The character class of the SHA-512 crypt regex: [./0-9A-Za-z]. -/
def cryptAlpha (c : Char) : Bool := c.isAlphanum || decide (c = '.') || decide (c = '/')

/-- Decides whether a string matches the regex of spec property P4: a
SHA-512 crypt prefix, then 1 to 16 salt characters from [./0-9A-Za-z],
then a dollar separator, then a non-empty hash over [./0-9A-Za-z]. -/
def isHashShape (s : CStr) : Bool :=
  match s with
  | '$' :: '6' :: '$' :: rest =>
    let sa := rest.takeWhile (fun c => decide (c ≠ '$'))
    decide (1 ≤ sa.length) && decide (sa.length ≤ 16) && sa.all cryptAlpha &&
    (match rest.dropWhile (fun c => decide (c ≠ '$')) with
     | '$' :: h => decide (h ≠ []) && h.all cryptAlpha
     | _ => false)
  | _ => false

/-- Recognises the warning banner of a given credential in the log. -/
def isBannerFor (key : CStr) : LogEvent → Bool
  | LogEvent.banner k _ _ => decide (k = key)
  | _ => false

/-- Supervisor state: the running flag (source line 26), the recorded pid
table (source line 27), the pids to which SIGTERM has been sent, and the
pids that have been reaped by some waitpid. -/
structure SupState where
  running : Bool
  pids : List Int
  termSent : List Int
  reaped : List Int
deriving DecidableEq

/-- signal_handler (source lines 30-38): clears the running flag and sends
SIGTERM to every recorded pid that is positive. -/
def signal_handler (s : SupState) : SupState :=
  { s with running := false,
           termSent := s.termSent ++ s.pids.filter (fun p => decide (0 < p)) }

/-- What can happen during one iteration of the monitor loop: delivery of
SIGTERM/SIGINT, the non-blocking waitpid reaping some process (any pid the
OS hands back, recorded pid or not), or nothing (waitpid returned 0). -/
inductive SupEvent
  | signal
  | tick
  | reap (pid : Int)
deriving DecidableEq

/-- One iteration of the monitor loop (source lines 351-367): a reaped pid
clears the running flag only when it equals one of the recorded pids; any
other reap (for example an orphan inherited by PID 1) changes nothing. -/
def monitorStep (s : SupState) (e : SupEvent) : SupState :=
  match e with
  | SupEvent.signal => signal_handler s
  | SupEvent.tick => s
  | SupEvent.reap pid =>
    if 0 < pid then
      if pid ∈ s.pids then
        { s with reaped := s.reaped ++ [pid], running := false }
      else
        { s with reaped := s.reaped ++ [pid] }
    else s

/-- The monitor loop (source line 351): events are consumed while the
running flag holds; once it is cleared the loop exits. -/
def monitorRun : SupState → List SupEvent → SupState
  | s, [] => s
  | s, e :: es => if s.running then monitorRun (monitorStep s e) es else s

/-- The shutdown sequence (source lines 369-385): SIGTERM to every
recorded positive pid (including ones already reaped: the slots are never
cleared), then a blocking waitpid on each recorded positive pid. A pid
already reaped by the monitor loop yields ECHILD and is not reaped again;
each other wait blocks until that child is reaped. -/
def shutdown (s : SupState) : SupState :=
  { s with
    termSent := s.termSent ++ s.pids.filter (fun p => decide (0 < p)),
    reaped := s.reaped ++ s.pids.filter (fun p => decide (0 < p ∧ p ∉ s.reaped)) }

/-- main (source lines 278-386) at the granularity the claims need: when
the setup return value is non-zero, main returns 1 before forking anything
(source 290-293); otherwise the children are started, the monitor loop
consumes its event trace, the shutdown sequence runs and main returns 0
(source line 385). Result: (exit code, children started, final state). -/
def mainRun (setupRet : Int) (pids : List Int) (events : List SupEvent) :
    Int × Bool × SupState :=
  if setupRet ≠ 0 then (1, false, ⟨true, [], [], []⟩)
  else (0, true, shutdown (monitorRun ⟨true, pids, [], []⟩ events))

/-- A SetupEnv with every variable absent. -/
def envNone : SetupEnv := ⟨none, none, none, none, none, none⟩

/-- A working random device delivering 32 zero bytes. -/
def randOK : RandWorld := ⟨true, 32, List.replicate 32 0, []⟩

/-- A random device that opens but whose read returns 0 bytes. -/
def randEmptyRead : RandWorld := ⟨true, 0, [], [1, 2, 3]⟩

/-- World with no secrets file, working randomness, failing crypt, and all
artifact writes succeeding. -/
def worldGen : SetupWorld := ⟨none, randOK, randOK, randOK, fun _ _ => none, true, true, true⟩

/-- World like worldGen but with every artifact fopen failing. -/
def worldNoWrites : SetupWorld :=
  ⟨none, randOK, randOK, randOK, fun _ _ => none, false, false, false⟩

/-- A secrets file supplying the MQTT credential bob:pw. -/
def fileBobMqtt : List CStr := [("MQBASE_MQTT_USER=bob:pw").data]

/-- Env where MQBASE_MQTT_USER is present but empty. -/
def envEmptyMqtt : SetupEnv := ⟨some [], none, none, none, none, none⟩

/-- Env where MQBASE_MQTT_USER is the colon-less string abc. -/
def envAbcMqtt : SetupEnv := ⟨some (("abc").data), none, none, none, none, none⟩

/-- World whose secrets file supplies the MQTT credential bob:pw. -/
def worldBob : SetupWorld :=
  ⟨some fileBobMqtt, randOK, randOK, randOK, fun _ _ => none, true, true, true⟩

/-- A crypt stand-in satisfying the SHA-512 crypt output contract. -/
def cryptStub : CStr → CStr → Option CStr :=
  fun _ salt => some (salt ++ '$' :: (("Ab2").data))

/-- World with working randomness and the crypt stand-in. -/
def worldCrypt : SetupWorld := ⟨none, randOK, randOK, randOK, cryptStub, true, true, true⟩

/-- Env supplying only the HTTP credential alice:pw. -/
def envAlice : SetupEnv := ⟨none, some (("alice:pw").data), none, none, none, none⟩

/-- Splitting at the first occurrence of a character that is absent from
the left part: takeWhile yields exactly the left part and dropWhile the
rest from the separator on. -/
theorem takeWhile_stop_split (stop : Char) (u v : CStr) (hu : stop ∉ u) :
    (u ++ stop :: v).takeWhile (fun c => decide (c ≠ stop)) = u ∧
    (u ++ stop :: v).dropWhile (fun c => decide (c ≠ stop)) = stop :: v := by
  induction u with
  | nil => simp [List.takeWhile_cons, List.dropWhile_cons]
  | cons a u ih =>
    have ha : a ≠ stop := by
      intro h
      exact hu (by simp [h])
    have h2 : stop ∉ u := by
      intro h
      exact hu (List.mem_cons_of_mem _ h)
    have ih2 := ih h2
    have hpa : decide (a ≠ stop) = true := by simp [ha]
    constructor
    · simp only [List.cons_append, List.takeWhile_cons, hpa, if_true, ih2.1]
    · simp only [List.cons_append, List.dropWhile_cons, hpa, if_true, ih2.2]

/-- parseUserPass on a well-formed short credential yields exactly the
parts before and after the first colon. -/
theorem parseUserPass_split (u p d1 d2 : CStr) (hu : ':' ∉ u)
    (h63 : u.length ≤ 63) (h255 : u.length + 1 + p.length ≤ 255) :
    parseUserPass (u ++ ':' :: p) d1 d2 = (u, p) := by
  have hlen : (u ++ ':' :: p).length ≤ 255 := by
    simp only [List.length_append, List.length_cons]
    omega
  have hsplit := takeWhile_stop_split ':' u p hu
  have hmem : ':' ∈ u ++ ':' :: p := by simp
  simp only [parseUserPass, List.take_of_length_le hlen, if_pos hmem, hsplit.1, hsplit.2]
  rw [List.take_of_length_le h63]
  simp only [List.drop_succ_cons, List.drop_zero]
  rw [List.take_of_length_le (by omega)]

/-- processCred on a selected credential with a colon: the parsed parts. -/
theorem processCred_parse (key : CStr) (rw : RandWorld) (ff : Bool) (u p : CStr)
    (hu : ':' ∉ u) (h63 : u.length ≤ 63) (h255 : u.length + 1 + p.length ≤ 255) :
    (processCred key (some (u ++ ':' :: p)) ff rw).1 = u ∧
    (processCred key (some (u ++ ':' :: p)) ff rw).2.1 = p := by
  have hmem : ':' ∈ u ++ ':' :: p := by simp
  have hpp := parseUserPass_split u p (("admin").data) [] hu h63 h255
  simp [processCred, hmem, hpp]

/-- processCred with no selected credential takes the generation branch. -/
theorem processCred_gen_none (key : CStr) (ff : Bool) (rw : RandWorld) :
    processCred key none ff rw =
      ((("admin").data), generate_password rw 17,
       [LogEvent.banner key (("admin").data) (generate_password rw 17)]) := rfl

/-- processCred on a colon-less credential takes the generation branch. -/
theorem processCred_gen_nocolon (key s : CStr) (ff : Bool) (rw : RandWorld) (h : ':' ∉ s) :
    processCred key (some s) ff rw =
      ((("admin").data), generate_password rw 17,
       [LogEvent.banner key (("admin").data) (generate_password rw 17)]) := by
  simp [processCred, h]

/-- A present MQBASE_MQTT_USER env var is always the selected credential,
whatever the secrets file holds. -/
theorem mqttChoice_env (env : SetupEnv) (w : SetupWorld) (s : CStr)
    (h : env.mqttCred = some s) : mqttChoice env w = (some s, false) := by
  simp [mqttChoice, pick, h]

/-- A present MQBASE_USER env var is always the selected credential. -/
theorem httpChoice_env (env : SetupEnv) (w : SetupWorld) (s : CStr)
    (h : env.httpCred = some s) : httpChoice env w = (some s, false) := by
  simp [httpChoice, pick, h]

/-- With the env var absent and a non-empty file record, the file record
is selected. -/
theorem mqttChoice_file (env : SetupEnv) (w : SetupWorld) (lines : List CStr)
    (hm : env.mqttCred = none) (hf : w.secretsFile = some lines)
    (hne : (lines.foldl secretsStep ([], [])).1 ≠ []) :
    mqttChoice env w = (some (lines.foldl secretsStep ([], [])).1, true) := by
  simp [mqttChoice, pick, secretsTriple, load_secrets_file, hm, hf, hne]

/-- HTTP version of mqttChoice_file. -/
theorem httpChoice_file (env : SetupEnv) (w : SetupWorld) (lines : List CStr)
    (hh : env.httpCred = none) (hf : w.secretsFile = some lines)
    (hne : (lines.foldl secretsStep ([], [])).2 ≠ []) :
    httpChoice env w = (some (lines.foldl secretsStep ([], [])).2, true) := by
  simp [httpChoice, pick, secretsTriple, load_secrets_file, hh, hf, hne]

/-- With the env var absent and no usable file record, nothing is
selected. -/
theorem mqttChoice_gen (env : SetupEnv) (w : SetupWorld)
    (hm : env.mqttCred = none)
    (hno : w.secretsFile = none ∨ ∀ lines, w.secretsFile = some lines →
      (lines.foldl secretsStep ([], [])).1 = []) :
    mqttChoice env w = (none, false) := by
  cases hw : w.secretsFile with
  | none => simp [mqttChoice, pick, secretsTriple, load_secrets_file, hm, hw]
  | some lines =>
    rcases hno with h | h
    · rw [hw] at h
      exact absurd h (by simp)
    · have hrec := h lines hw
      simp [mqttChoice, pick, secretsTriple, load_secrets_file, hm, hw, hrec]

/-- HTTP version of mqttChoice_gen. -/
theorem httpChoice_gen (env : SetupEnv) (w : SetupWorld)
    (hh : env.httpCred = none)
    (hno : w.secretsFile = none ∨ ∀ lines, w.secretsFile = some lines →
      (lines.foldl secretsStep ([], [])).2 = []) :
    httpChoice env w = (none, false) := by
  cases hw : w.secretsFile with
  | none => simp [httpChoice, pick, secretsTriple, load_secrets_file, hh, hw]
  | some lines =>
    rcases hno with h | h
    · rw [hw] at h
      exact absurd h (by simp)
    · have hrec := h lines hw
      simp [httpChoice, pick, secretsTriple, load_secrets_file, hh, hw, hrec]

/-- An in-range getD lands inside the list. -/
theorem charset_getD_mem (cs : CStr) (x : Nat) (hx : x < cs.length) :
    cs.getD x 'A' ∈ cs := by
  rw [List.getD_eq_getElem?_getD, List.getElem?_eq_getElem hx, Option.getD_some]
  exact List.getElem_mem hx

/-- When the random source works (or the PRNG fallback is taken), the
generated password has exactly 16 characters, all from the 62-symbol
alphanumeric alphabet. -/
theorem generate_password_spec (rw : RandWorld) (hr : rw.openOk = false ∨ 0 < rw.readRet) :
    (generate_password rw 17).length = 16 ∧
    ∀ c ∈ generate_password rw 17, c ∈ passCharset := by
  have hlen : passCharset.length = 62 := by decide
  have hmem : ∀ bytes : List Nat, ∀ c ∈ (List.range (17 - 1)).map
      (fun i => passCharset.getD (bytes.getD i 0 % 62) 'A'), c ∈ passCharset := by
    intro bytes c hc
    rw [List.mem_map] at hc
    obtain ⟨i, _, rfl⟩ := hc
    exact charset_getD_mem _ _ (by rw [hlen]; exact Nat.mod_lt _ (by norm_num))
  rcases hr with h | h
  · rw [generate_password, if_neg (by simp [h])]
    exact ⟨by simp, hmem rw.prng⟩
  · rw [generate_password]
    by_cases ho : rw.openOk = true
    · rw [if_pos ho, if_pos h]
      exact ⟨by simp, hmem rw.rbuf⟩
    · rw [if_neg ho]
      exact ⟨by simp, hmem rw.prng⟩

/-- When the random source works, the generated salt has exactly 16
characters, all from the 64-symbol ./alphanumeric alphabet. -/
theorem generate_salt_spec (rw : RandWorld) (ho : rw.openOk = true) (hr : 0 < rw.readRet) :
    (generate_salt rw 17).length = 16 ∧
    ∀ c ∈ generate_salt rw 17, c ∈ saltCharset := by
  have hlen : saltCharset.length = 64 := by decide
  rw [generate_salt, if_pos ho, if_pos hr]
  refine ⟨by simp, ?_⟩
  intro c hc
  rw [List.mem_map] at hc
  obtain ⟨i, _, rfl⟩ := hc
  exact charset_getD_mem _ _ (by rw [hlen]; exact Nat.mod_lt _ (by norm_num))

/-- The resolved HTTP user never exceeds 63 characters (it is either the
5-character default admin or a strncpy-capped prefix). -/
theorem httpResolved_user_short (env : SetupEnv) (w : SetupWorld) :
    ((httpResolved env w).1).length ≤ 63 := by
  rw [httpResolved]
  cases (httpChoice env w).1 with
  | none => simp [processCred]
  | some s =>
    by_cases hc : ':' ∈ s
    · simp only [processCred, if_pos hc, parseUserPass]
      by_cases hb : ':' ∈ s.take 255
      · simp only [if_pos hb]
        exact List.length_take_le 63 _
      · simp only [if_neg hb]
        decide
    · simp [processCred, hc]

/-- monitorStep never changes the recorded pid table. -/
theorem monitorStep_pids (s : SupState) (e : SupEvent) :
    (monitorStep s e).pids = s.pids := by
  cases e with
  | signal => rfl
  | tick => rfl
  | reap pid =>
    simp only [monitorStep]
    split
    · split <;> rfl
    · rfl

/-- The monitor loop never changes the recorded pid table. -/
theorem monitorRun_pids (es : List SupEvent) : ∀ s : SupState,
    (monitorRun s es).pids = s.pids := by
  induction es with
  | nil => intro s; rfl
  | cons e es ih =>
    intro s
    rw [monitorRun]
    by_cases h : s.running = true
    · rw [if_pos h, ih, monitorStep_pids]
    · rw [if_neg h]

/-- If the monitor loop exits (the running flag got cleared), some event
of the trace was a termination signal or the reap of a recorded pid. -/
theorem monitorRun_cause (es : List SupEvent) : ∀ s : SupState,
    s.running = true → (monitorRun s es).running = false →
    ∃ e ∈ es, e = SupEvent.signal ∨ ∃ p, e = SupEvent.reap p ∧ p ∈ s.pids := by
  induction es with
  | nil =>
    intro s h1 h2
    rw [monitorRun] at h2
    rw [h1] at h2
    cases h2
  | cons e es ih =>
    intro s h1 h2
    rw [monitorRun, if_pos h1] at h2
    by_cases hr : (monitorStep s e).running = true
    · obtain ⟨e2, he2, hc⟩ := ih (monitorStep s e) hr h2
      refine ⟨e2, List.mem_cons_of_mem _ he2, ?_⟩
      rwa [monitorStep_pids] at hc
    · cases e with
      | signal => exact ⟨SupEvent.signal, List.mem_cons_self _ _, Or.inl rfl⟩
      | tick => exact absurd h1 hr
      | reap p =>
        by_cases hp : 0 < p
        · by_cases hmem : p ∈ s.pids
          · exact ⟨SupEvent.reap p, List.mem_cons_self _ _, Or.inr ⟨p, rfl, hmem⟩⟩
          · refine absurd ?_ hr
            simp only [monitorStep, if_pos hp, if_neg hmem]
            exact h1
        · refine absurd ?_ hr
          simp only [monitorStep, if_neg hp]
          exact h1

/-- The shutdown sequence reaps, and sends SIGTERM to, every recorded
positive pid. -/
theorem shutdown_complete (s : SupState) (p : Int) (hp : p ∈ s.pids) (h0 : 0 < p) :
    p ∈ (shutdown s).reaped ∧ p ∈ (shutdown s).termSent := by
  constructor
  · by_cases hr : p ∈ s.reaped
    · exact List.mem_append.mpr (Or.inl hr)
    · refine List.mem_append.mpr (Or.inr ?_)
      refine List.mem_filter.mpr ⟨hp, ?_⟩
      simp [h0, hr]
  · refine List.mem_append.mpr (Or.inr ?_)
    refine List.mem_filter.mpr ⟨hp, ?_⟩
    simp [h0]

/-- C2: the claim says a failed artifact write is fatal (error return,
exit status 1, no child started). The code computes write_file's -1 but
discards it: with every artifact fopen failing, setup_credentials still
returns 0, so main starts the children and the exit code is 0, not 1.
This theorem evaluates the code at that failing input. -/
theorem c2_write_failure_not_fatal :
    (setup_credentials envNone worldNoWrites).ret = 0 ∧
    (setup_credentials envNone worldNoWrites).mqttJson.writeRet = -1 ∧
    (setup_credentials envNone worldNoWrites).htpasswd.writeRet = -1 ∧
    (setup_credentials envNone worldNoWrites).appConfig.writeRet = -1 ∧
    (mainRun (setup_credentials envNone worldNoWrites).ret [4, 5, 6] []).1 = 0 ∧
    (mainRun (setup_credentials envNone worldNoWrites).ret [4, 5, 6] []).2.1 = true := by
  decide

/-- C3: the supervisor exits 0 on every orderly shutdown, whatever the
event trace (signals or any child exit with any status), and exits 1 only
on the branch where credential materialization reported failure, in which
case no child was started; moreover the actual setup return value is
always 0, so the real run always exits 0. -/
theorem c3_exit_codes (r : Int) (pids : List Int) (ev : List SupEvent) :
    ((mainRun r pids ev).1 = 1 → r ≠ 0 ∧ (mainRun r pids ev).2.1 = false) ∧
    (r = 0 → (mainRun r pids ev).1 = 0 ∧ (mainRun r pids ev).2.1 = true) ∧
    (∀ env w, (mainRun (setup_credentials env w).ret pids ev).1 = 0) := by
  by_cases hr : r = 0
  · subst hr
    refine ⟨?_, ?_, ?_⟩
    · intro h1
      rw [mainRun, if_neg (by simp)] at h1
      exact absurd (show (0 : Int) = 1 from h1) (by decide)
    · intro _
      rw [mainRun, if_neg (by simp)]
      exact ⟨rfl, rfl⟩
    · intro env w
      rw [show (setup_credentials env w).ret = 0 from rfl, mainRun, if_neg (by simp)]
  · refine ⟨?_, ?_, ?_⟩
    · intro _
      rw [mainRun, if_pos hr]
      exact ⟨hr, rfl⟩
    · intro h
      exact absurd h hr
    · intro env w
      rw [show (setup_credentials env w).ret = 0 from rfl, mainRun, if_neg (by simp)]

/-- Witness for c3_exit_codes: a concrete orderly shutdown exits 0 with
children started. -/
theorem c3_witness :
    (mainRun 0 [4, 5, 6] [SupEvent.signal]).1 = 0 ∧
    (mainRun 0 [4, 5, 6] [SupEvent.signal]).2.1 = true :=
  (c3_exit_codes 0 [4, 5, 6] [SupEvent.signal]).2.1 rfl

/-- C7: whatever happened during the monitor loop (TERM delivery or any
child exit clearing the running flag), every recorded positive child pid
has been sent SIGTERM and has been reaped by the time main returns. -/
theorem c7_drain_completeness (pids : List Int) (ev : List SupEvent) (p : Int)
    (hp : p ∈ pids) (h0 : 0 < p) :
    p ∈ (mainRun 0 pids ev).2.2.reaped ∧ p ∈ (mainRun 0 pids ev).2.2.termSent := by
  have hm : (mainRun 0 pids ev).2.2 = shutdown (monitorRun ⟨true, pids, [], []⟩ ev) := by
    rw [mainRun, if_neg (by simp)]
  rw [hm]
  have hpids : (monitorRun ⟨true, pids, [], []⟩ ev).pids = pids := monitorRun_pids ev _
  exact shutdown_complete _ p (by rw [hpids]; exact hp) h0

/-- Witness for c7_drain_completeness at a concrete pid table and trace. -/
theorem c7_witness :
    (5 : Int) ∈ (mainRun 0 [5, 7, 9] [SupEvent.signal]).2.2.reaped ∧
    (5 : Int) ∈ (mainRun 0 [5, 7, 9] [SupEvent.signal]).2.2.termSent :=
  c7_drain_completeness [5, 7, 9] [SupEvent.signal] 5 (by decide) (by decide)

/-- C9: reaping a pid that matches none of the recorded children leaves
the running flag (and the pid table) unchanged, and the monitor loop's
flag is cleared only by a termination signal or by the reap of one of the
recorded pids. -/
theorem c9_unknown_pid_ignored (s : SupState) (es : List SupEvent) (q : Int)
    (hq : q ∉ s.pids) :
    (monitorStep s (SupEvent.reap q)).running = s.running ∧
    (monitorStep s (SupEvent.reap q)).pids = s.pids ∧
    (s.running = true → (monitorRun s es).running = false →
      ∃ e ∈ es, e = SupEvent.signal ∨ ∃ p, e = SupEvent.reap p ∧ p ∈ s.pids) := by
  refine ⟨?_, monitorStep_pids s _, monitorRun_cause es s⟩
  simp only [monitorStep]
  by_cases hp : 0 < q
  · rw [if_pos hp, if_neg hq]
  · rw [if_neg hp]

/-- Witness for c9_unknown_pid_ignored: reaping pid 11 with recorded pids
5, 7, 9 changes neither the flag nor the table. -/
theorem c9_witness :
    (monitorStep ⟨true, [5, 7, 9], [], []⟩ (SupEvent.reap 11)).running
      = (⟨true, [5, 7, 9], [], []⟩ : SupState).running ∧
    (monitorStep ⟨true, [5, 7, 9], [], []⟩ (SupEvent.reap 11)).pids
      = (⟨true, [5, 7, 9], [], []⟩ : SupState).pids :=
  ⟨(c9_unknown_pid_ignored ⟨true, [5, 7, 9], [], []⟩ [] 11 (by decide)).1,
   (c9_unknown_pid_ignored ⟨true, [5, 7, 9], [], []⟩ [] 11 (by decide)).2.1⟩

/-- C10: when the random device opens but the read returns zero bytes or
an error, generate_password writes nothing, so the password is the empty
string from the caller's zero-filled buffer; generate_salt likewise leaves
the part after the SHA-512 prefix empty; the result does not depend on the
PRNG stream (no fallback), and the empty secret propagates into
setup_credentials. -/
theorem c10_zero_read (rw : RandWorld) (ho : rw.openOk = true) (hr : rw.readRet ≤ 0) :
    generate_password rw 17 = [] ∧
    generate_salt rw 17 = [] ∧
    ("$6$").data ++ generate_salt rw 17 = ("$6$").data ∧
    (∀ b : List Nat, generate_password ⟨rw.openOk, rw.readRet, rw.rbuf, b⟩ 17 = []) ∧
    (∀ env w, env.mqttCred = none → w.secretsFile = none → w.mqttRand = rw →
      (setup_credentials env w).mqttPass = []) := by
  have hno : ¬ 0 < rw.readRet := by omega
  have hpw : generate_password rw 17 = [] := by
    simp [generate_password, ho, hno]
  have hsalt : generate_salt rw 17 = [] := by
    simp [generate_salt, ho, hno]
  refine ⟨hpw, hsalt, by rw [hsalt, List.append_nil], ?_, ?_⟩
  · intro b
    simp [generate_password, ho, hno]
  · intro env w hm hf hrand
    have hch := mqttChoice_gen env w hm (Or.inl hf)
    have hdef : (setup_credentials env w).mqttPass
        = (processCred envKeyMQTT (mqttChoice env w).1 (mqttChoice env w).2 w.mqttRand).2.1 :=
      rfl
    rw [hdef, hch]
    show generate_password w.mqttRand 17 = []
    rw [hrand]
    exact hpw

/-- Witness for c10_zero_read at a device whose read returns 0. -/
theorem c10_witness :
    generate_password randEmptyRead 17 = [] ∧ generate_salt randEmptyRead 17 = [] :=
  ⟨(c10_zero_read randEmptyRead rfl (by decide)).1,
   (c10_zero_read randEmptyRead rfl (by decide)).2.1⟩

/-- A line whose trimmed form starts with the 12-character HTTP key sets
file_http_cred to the value after the equals sign (capped at 255). -/
theorem secretsStep_http (acc : CStr × CStr) (line v : CStr)
    (h : trimCRLF line = keyHTTP ++ v) :
    secretsStep acc line = (acc.1, v.take 255) := by
  have h12 : (keyHTTP ++ v).take 12 = keyHTTP := List.take_left' (by decide)
  have hd : (keyHTTP ++ v).drop 12 = v := List.drop_left' (by decide)
  have hne : keyHTTP ++ v ≠ [] := by
    rw [show keyHTTP ++ v = 'M' :: ((("QBASE_USER=").data) ++ v) from rfl]
    simp
  have hh : (keyHTTP ++ v).headD ' ' = 'M' := by
    rw [show keyHTTP ++ v = 'M' :: ((("QBASE_USER=").data) ++ v) from rfl, List.headD_cons]
  simp only [secretsStep, h]
  rw [if_neg hne, if_neg (by rw [hh]; decide), if_pos h12, hd]

/-- A line whose trimmed form starts with the 17-character MQTT key sets
file_mqtt_cred to the value after the equals sign (capped at 255). -/
theorem secretsStep_mqtt (acc : CStr × CStr) (line v : CStr)
    (h : trimCRLF line = keyMQTT ++ v) :
    secretsStep acc line = (v.take 255, acc.2) := by
  have h17 : (keyMQTT ++ v).take 17 = keyMQTT := List.take_left' (by decide)
  have hd : (keyMQTT ++ v).drop 17 = v := List.drop_left' (by decide)
  have hne : keyMQTT ++ v ≠ [] := by
    rw [show keyMQTT ++ v = 'M' :: ((("QBASE_MQTT_USER=").data) ++ v) from rfl]
    simp
  have hh : (keyMQTT ++ v).headD ' ' = 'M' := by
    rw [show keyMQTT ++ v = 'M' :: ((("QBASE_MQTT_USER=").data) ++ v) from rfl, List.headD_cons]
  have h12 : (keyMQTT ++ v).take 12 = ("MQBASE_MQTT_").data := by
    rw [show keyMQTT ++ v = ("MQBASE_MQTT_").data ++ ((("USER=").data) ++ v) from rfl]
    exact List.take_left' (by decide)
  simp only [secretsStep, h]
  rw [if_neg hne, if_neg (by rw [hh]; decide), if_neg (by rw [h12]; decide), if_pos h17, hd]

/-- A line matching neither key prefix leaves both records unchanged. -/
theorem secretsStep_other (acc : CStr × CStr) (line : CStr)
    (h12 : (trimCRLF line).take 12 ≠ keyHTTP) (h17 : (trimCRLF line).take 17 ≠ keyMQTT) :
    secretsStep acc line = acc := by
  simp only [secretsStep]
  by_cases he : trimCRLF line = []
  · rw [if_pos he]
  · rw [if_neg he]
    by_cases hc : (trimCRLF line).headD ' ' = '#'
    · rw [if_pos hc]
    · rw [if_neg hc, if_neg h12, if_neg h17]

/-- C8: empty lines and comment lines (first character a hash) are
ignored; a line beginning MQBASE_USER= supplies the HTTP record and one
beginning MQBASE_MQTT_USER= the MQTT record, the value being what follows
the equals sign after trailing CR/LF trimming (capped at 255 characters);
lines with other keys are ignored; and the last occurrence of a key wins,
whatever came before it in the file. -/
theorem c8_secrets_file_semantics :
    (∀ acc line, trimCRLF line = [] → secretsStep acc line = acc) ∧
    (∀ acc line rest, trimCRLF line = '#' :: rest → secretsStep acc line = acc) ∧
    (∀ acc line v, trimCRLF line = keyHTTP ++ v → secretsStep acc line = (acc.1, v.take 255)) ∧
    (∀ acc line v, trimCRLF line = keyMQTT ++ v → secretsStep acc line = (v.take 255, acc.2)) ∧
    (∀ acc line, (trimCRLF line).take 12 ≠ keyHTTP → (trimCRLF line).take 17 ≠ keyMQTT →
      secretsStep acc line = acc) ∧
    (∀ pre l v, trimCRLF l = keyHTTP ++ v →
      (load_secrets_file (some (pre ++ [l]))).2.2 = v.take 255) ∧
    (∀ pre l v, trimCRLF l = keyMQTT ++ v →
      (load_secrets_file (some (pre ++ [l]))).2.1 = v.take 255) := by
  refine ⟨?_, ?_, secretsStep_http, secretsStep_mqtt, secretsStep_other, ?_, ?_⟩
  · intro acc line h
    simp [secretsStep, h]
  · intro acc line rest h
    simp [secretsStep, h]
  · intro pre l v h
    show (((pre ++ [l]).foldl secretsStep ([], []))).2 = v.take 255
    rw [List.foldl_append, List.foldl_cons, List.foldl_nil,
      secretsStep_http ((pre.foldl secretsStep ([], []))) l v h]
  · intro pre l v h
    show (((pre ++ [l]).foldl secretsStep ([], []))).1 = v.take 255
    rw [List.foldl_append, List.foldl_cons, List.foldl_nil,
      secretsStep_mqtt ((pre.foldl secretsStep ([], []))) l v h]

/-- Witness for c8_secrets_file_semantics: comment ignored, duplicate key
resolved to the last occurrence. -/
theorem c8_witness :
    (load_secrets_file (some [("# comment").data, ("MQBASE_USER=a:b").data,
      ("MQBASE_USER=alice:pw99").data])).2.2 = (("alice:pw99").data).take 255 :=
  c8_secrets_file_semantics.2.2.2.2.2.1
    [("# comment").data, ("MQBASE_USER=a:b").data]
    (("MQBASE_USER=alice:pw99").data) (("alice:pw99").data) (by decide)

/-- Bridge: when the MQTT selection is a well-formed short credential, the
setup result carries its parse. -/
theorem mqtt_parse_of_choice (env : SetupEnv) (w : SetupWorld) (b : Bool) (u p : CStr)
    (hch : mqttChoice env w = (some (u ++ ':' :: p), b)) (hu : ':' ∉ u)
    (h63 : u.length ≤ 63) (h255 : u.length + 1 + p.length ≤ 255) :
    (setup_credentials env w).mqttUser = u ∧ (setup_credentials env w).mqttPass = p := by
  have hpc := processCred_parse envKeyMQTT w.mqttRand b u p hu h63 h255
  constructor
  · show (processCred envKeyMQTT (mqttChoice env w).1 (mqttChoice env w).2 w.mqttRand).1 = u
    rw [hch]
    exact hpc.1
  · show (processCred envKeyMQTT (mqttChoice env w).1 (mqttChoice env w).2 w.mqttRand).2.1 = p
    rw [hch]
    exact hpc.2

/-- HTTP version of mqtt_parse_of_choice. -/
theorem http_parse_of_choice (env : SetupEnv) (w : SetupWorld) (b : Bool) (u p : CStr)
    (hch : httpChoice env w = (some (u ++ ':' :: p), b)) (hu : ':' ∉ u)
    (h63 : u.length ≤ 63) (h255 : u.length + 1 + p.length ≤ 255) :
    (setup_credentials env w).httpUser = u ∧ (setup_credentials env w).httpPass = p := by
  have hpc := processCred_parse envKeyHTTP w.httpRand b u p hu h63 h255
  constructor
  · show (processCred envKeyHTTP (httpChoice env w).1 (httpChoice env w).2 w.httpRand).1 = u
    rw [hch]
    exact hpc.1
  · show (processCred envKeyHTTP (httpChoice env w).1 (httpChoice env w).2 w.httpRand).2.1 = p
    rw [hch]
    exact hpc.2

/-- Bridge: when nothing is selected for MQTT, the setup result is the
generated credential. -/
theorem mqtt_gen_of_choice (env : SetupEnv) (w : SetupWorld)
    (hch : mqttChoice env w = (none, false)) :
    (setup_credentials env w).mqttUser = ("admin").data ∧
    (setup_credentials env w).mqttPass = generate_password w.mqttRand 17 := by
  constructor
  · show (processCred envKeyMQTT (mqttChoice env w).1 (mqttChoice env w).2 w.mqttRand).1
      = ("admin").data
    rw [hch]
    rfl
  · show (processCred envKeyMQTT (mqttChoice env w).1 (mqttChoice env w).2 w.mqttRand).2.1
      = generate_password w.mqttRand 17
    rw [hch]
    rfl

/-- HTTP version of mqtt_gen_of_choice. -/
theorem http_gen_of_choice (env : SetupEnv) (w : SetupWorld)
    (hch : httpChoice env w = (none, false)) :
    (setup_credentials env w).httpUser = ("admin").data ∧
    (setup_credentials env w).httpPass = generate_password w.httpRand 17 := by
  constructor
  · show (processCred envKeyHTTP (httpChoice env w).1 (httpChoice env w).2 w.httpRand).1
      = ("admin").data
    rw [hch]
    rfl
  · show (processCred envKeyHTTP (httpChoice env w).1 (httpChoice env w).2 w.httpRand).2.1
      = generate_password w.httpRand 17
    rw [hch]
    rfl

/-- C1 (amended): for each credential independently, a present env var
containing a colon always wins (its parse reaches the setup result
whatever the secrets file holds); the file record is used only when the
env var is entirely unset, the file opens and the record is non-empty (and
parses when it has a colon); and generation is used when the env var is
unset and the file supplies no non-empty record. A present-but-empty or
colon-less env var is NOT handed to the file: see c1_counterexample. -/
theorem c1_env_beats_file_beats_generation (env : SetupEnv) (w : SetupWorld) :
    (∀ u p, env.mqttCred = some (u ++ ':' :: p) → ':' ∉ u → u.length ≤ 63 →
      u.length + 1 + p.length ≤ 255 →
      (setup_credentials env w).mqttUser = u ∧ (setup_credentials env w).mqttPass = p) ∧
    (∀ u p, env.httpCred = some (u ++ ':' :: p) → ':' ∉ u → u.length ≤ 63 →
      u.length + 1 + p.length ≤ 255 →
      (setup_credentials env w).httpUser = u ∧ (setup_credentials env w).httpPass = p) ∧
    (∀ lines u p, env.mqttCred = none → w.secretsFile = some lines →
      (lines.foldl secretsStep ([], [])).1 = u ++ ':' :: p → ':' ∉ u → u.length ≤ 63 →
      u.length + 1 + p.length ≤ 255 →
      (setup_credentials env w).mqttUser = u ∧ (setup_credentials env w).mqttPass = p) ∧
    (∀ lines u p, env.httpCred = none → w.secretsFile = some lines →
      (lines.foldl secretsStep ([], [])).2 = u ++ ':' :: p → ':' ∉ u → u.length ≤ 63 →
      u.length + 1 + p.length ≤ 255 →
      (setup_credentials env w).httpUser = u ∧ (setup_credentials env w).httpPass = p) ∧
    (env.mqttCred = none → (w.secretsFile = none ∨ ∀ lines, w.secretsFile = some lines →
        (lines.foldl secretsStep ([], [])).1 = []) →
      (setup_credentials env w).mqttUser = ("admin").data ∧
      (setup_credentials env w).mqttPass = generate_password w.mqttRand 17) ∧
    (env.httpCred = none → (w.secretsFile = none ∨ ∀ lines, w.secretsFile = some lines →
        (lines.foldl secretsStep ([], [])).2 = []) →
      (setup_credentials env w).httpUser = ("admin").data ∧
      (setup_credentials env w).httpPass = generate_password w.httpRand 17) := by
  refine ⟨?_, ?_, ?_, ?_, ?_, ?_⟩
  · intro u p hs hu h63 h255
    exact mqtt_parse_of_choice env w false u p (mqttChoice_env env w _ hs) hu h63 h255
  · intro u p hs hu h63 h255
    exact http_parse_of_choice env w false u p (httpChoice_env env w _ hs) hu h63 h255
  · intro lines u p hm hf hfold hu h63 h255
    have hch := mqttChoice_file env w lines hm hf (by rw [hfold]; simp)
    rw [hfold] at hch
    exact mqtt_parse_of_choice env w true u p hch hu h63 h255
  · intro lines u p hh hf hfold hu h63 h255
    have hch := httpChoice_file env w lines hh hf (by rw [hfold]; simp)
    rw [hfold] at hch
    exact http_parse_of_choice env w true u p hch hu h63 h255
  · intro hm hno
    exact mqtt_gen_of_choice env w (mqttChoice_gen env w hm hno)
  · intro hh hno
    exact http_gen_of_choice env w (httpChoice_gen env w hh hno)

/-- C1 counterexample: MQBASE_MQTT_USER is present but empty while the
secrets file supplies bob:pw. Per the claim only the file supplies the
credential, so the file value should be used; the code instead treats the
present env var as claiming the credential, fails to parse it, and
generates, never consulting the file record. -/
theorem c1_counterexample :
    envEmptyMqtt.mqttCred = some [] ∧
    (setup_credentials envEmptyMqtt worldBob).mqttUser = ("admin").data ∧
    (setup_credentials envEmptyMqtt worldBob).mqttPass = List.replicate 16 'A' ∧
    ¬((setup_credentials envEmptyMqtt worldBob).mqttUser = ("bob").data ∧
      (setup_credentials envEmptyMqtt worldBob).mqttPass = ("pw").data) := by
  decide

/-- Witness for c1_env_beats_file_beats_generation: with the env var unset
the file record bob:pw reaches the artifacts. -/
theorem c1_witness :
    (setup_credentials envNone worldBob).mqttUser = ("bob").data ∧
    (setup_credentials envNone worldBob).mqttPass = ("pw").data :=
  (c1_env_beats_file_beats_generation envNone worldBob).2.2.1 fileBobMqtt
    (("bob").data) (("pw").data) rfl rfl (by decide) (by decide) (by decide) (by decide)

/-- C4 (amended): parsing splits at the FIRST colon (u:a:b gives user u
and secret a:b); a selected string lacking a colon is treated as absent
and falls through directly to generation, not to the next source of the
precedence chain: source selection happens before parsing, so a colon-less
env value forces generation even when the secrets file supplies the
credential (see c4_counterexample). -/
theorem c4_first_colon_parse (env : SetupEnv) (w : SetupWorld) :
    (∀ key rw ff u p, ':' ∉ u → u.length ≤ 63 → u.length + 1 + p.length ≤ 255 →
      (processCred key (some (u ++ ':' :: p)) ff rw).1 = u ∧
      (processCred key (some (u ++ ':' :: p)) ff rw).2.1 = p) ∧
    (∀ key rw ff, (processCred key (some (("u:a:b").data)) ff rw).1 = ("u").data ∧
      (processCred key (some (("u:a:b").data)) ff rw).2.1 = ("a:b").data) ∧
    (∀ s, env.mqttCred = some s → ':' ∉ s →
      (setup_credentials env w).mqttUser = ("admin").data ∧
      (setup_credentials env w).mqttPass = generate_password w.mqttRand 17) ∧
    (∀ s, env.httpCred = some s → ':' ∉ s →
      (setup_credentials env w).httpUser = ("admin").data ∧
      (setup_credentials env w).httpPass = generate_password w.httpRand 17) := by
  refine ⟨?_, ?_, ?_, ?_⟩
  · intro key rw ff u p hu h63 h255
    exact processCred_parse key rw ff u p hu h63 h255
  · intro key rw ff
    exact processCred_parse key rw ff (("u").data) (("a:b").data)
      (by decide) (by decide) (by decide)
  · intro s hs hc
    have hch := mqttChoice_env env w s hs
    have hgen := processCred_gen_nocolon envKeyMQTT s false w.mqttRand hc
    constructor
    · show (processCred envKeyMQTT (mqttChoice env w).1 (mqttChoice env w).2 w.mqttRand).1
        = ("admin").data
      rw [hch]
      show (processCred envKeyMQTT (some s) false w.mqttRand).1 = ("admin").data
      rw [hgen]
    · show (processCred envKeyMQTT (mqttChoice env w).1 (mqttChoice env w).2 w.mqttRand).2.1
        = generate_password w.mqttRand 17
      rw [hch]
      show (processCred envKeyMQTT (some s) false w.mqttRand).2.1
        = generate_password w.mqttRand 17
      rw [hgen]
  · intro s hs hc
    have hch := httpChoice_env env w s hs
    have hgen := processCred_gen_nocolon envKeyHTTP s false w.httpRand hc
    constructor
    · show (processCred envKeyHTTP (httpChoice env w).1 (httpChoice env w).2 w.httpRand).1
        = ("admin").data
      rw [hch]
      show (processCred envKeyHTTP (some s) false w.httpRand).1 = ("admin").data
      rw [hgen]
    · show (processCred envKeyHTTP (httpChoice env w).1 (httpChoice env w).2 w.httpRand).2.1
        = generate_password w.httpRand 17
      rw [hch]
      show (processCred envKeyHTTP (some s) false w.httpRand).2.1
        = generate_password w.httpRand 17
      rw [hgen]

/-- C4 counterexample: MQBASE_MQTT_USER is the colon-less string abc while
the secrets file supplies bob:pw. Per the claim abc is treated as absent
and resolution falls through to the next source, the file, giving bob and
pw; the code instead generates. -/
theorem c4_counterexample :
    (setup_credentials envAbcMqtt worldBob).mqttUser = ("admin").data ∧
    (setup_credentials envAbcMqtt worldBob).mqttPass = List.replicate 16 'A' ∧
    ¬((setup_credentials envAbcMqtt worldBob).mqttUser = ("bob").data ∧
      (setup_credentials envAbcMqtt worldBob).mqttPass = ("pw").data) := by
  decide

/-- Witness for c4_first_colon_parse: the colon-less env value abc forces
generation despite the file record. -/
theorem c4_witness :
    (setup_credentials envAbcMqtt worldBob).mqttUser = ("admin").data ∧
    (setup_credentials envAbcMqtt worldBob).mqttPass
      = generate_password worldBob.mqttRand 17 :=
  (c4_first_colon_parse envAbcMqtt worldBob).2.2.1 (("abc").data) rfl (by decide)

/-- C5: when neither source supplies a usable credential (nothing selected
or the selected string has no colon), the user defaults to admin and the
secret is the freshly generated 16-character alphanumeric string from the
random device, with the seeded PRNG fallback used only when the device
cannot be opened; the warning banner of each generated credential appears
exactly once in the stderr log. -/
theorem c5_generation_defaults (env : SetupEnv) (w : SetupWorld)
    (hm : (mqttChoice env w).1 = none ∨ ∃ s, (mqttChoice env w).1 = some s ∧ ':' ∉ s)
    (hh : (httpChoice env w).1 = none ∨ ∃ s, (httpChoice env w).1 = some s ∧ ':' ∉ s)
    (hrm : w.mqttRand.openOk = false ∨ 0 < w.mqttRand.readRet)
    (hrh : w.httpRand.openOk = false ∨ 0 < w.httpRand.readRet) :
    (setup_credentials env w).mqttUser = ("admin").data ∧
    (setup_credentials env w).mqttPass = generate_password w.mqttRand 17 ∧
    (generate_password w.mqttRand 17).length = 16 ∧
    (∀ c ∈ generate_password w.mqttRand 17, c ∈ passCharset) ∧
    (setup_credentials env w).httpUser = ("admin").data ∧
    (setup_credentials env w).httpPass = generate_password w.httpRand 17 ∧
    (generate_password w.httpRand 17).length = 16 ∧
    (∀ c ∈ generate_password w.httpRand 17, c ∈ passCharset) ∧
    ((setup_credentials env w).stderrLog.filter (isBannerFor envKeyMQTT)).length = 1 ∧
    ((setup_credentials env w).stderrLog.filter (isBannerFor envKeyHTTP)).length = 1 := by
  have hmr : mqttResolved env w =
      ((("admin").data), generate_password w.mqttRand 17,
       [LogEvent.banner envKeyMQTT (("admin").data) (generate_password w.mqttRand 17)]) := by
    rw [mqttResolved]
    rcases hm with h | ⟨s, h, hc⟩
    · rw [h]
      exact processCred_gen_none envKeyMQTT _ _
    · rw [h]
      exact processCred_gen_nocolon envKeyMQTT s _ _ hc
  have hhr : httpResolved env w =
      ((("admin").data), generate_password w.httpRand 17,
       [LogEvent.banner envKeyHTTP (("admin").data) (generate_password w.httpRand 17)]) := by
    rw [httpResolved]
    rcases hh with h | ⟨s, h, hc⟩
    · rw [h]
      exact processCred_gen_none envKeyHTTP _ _
    · rw [h]
      exact processCred_gen_nocolon envKeyHTTP s _ _ hc
  have hlog : (setup_credentials env w).stderrLog =
      [LogEvent.banner envKeyMQTT (("admin").data) (generate_password w.mqttRand 17),
       LogEvent.banner envKeyHTTP (("admin").data) (generate_password w.httpRand 17)] := by
    show (mqttResolved env w).2.2 ++ (httpResolved env w).2.2 = _
    rw [hmr, hhr]
    rfl
  have e1 : ∀ a b : CStr, isBannerFor envKeyMQTT (LogEvent.banner envKeyMQTT a b) = true := by
    intro a b
    simp [isBannerFor]
  have e2 : ∀ a b : CStr, isBannerFor envKeyMQTT (LogEvent.banner envKeyHTTP a b) = false := by
    intro a b
    simp only [isBannerFor]
    decide
  have e3 : ∀ a b : CStr, isBannerFor envKeyHTTP (LogEvent.banner envKeyHTTP a b) = true := by
    intro a b
    simp [isBannerFor]
  have e4 : ∀ a b : CStr, isBannerFor envKeyHTTP (LogEvent.banner envKeyMQTT a b) = false := by
    intro a b
    simp only [isBannerFor]
    decide
  have hgm := generate_password_spec w.mqttRand hrm
  have hgh := generate_password_spec w.httpRand hrh
  refine ⟨?_, ?_, hgm.1, hgm.2, ?_, ?_, hgh.1, hgh.2, ?_, ?_⟩
  · show (mqttResolved env w).1 = ("admin").data
    rw [hmr]
  · show (mqttResolved env w).2.1 = generate_password w.mqttRand 17
    rw [hmr]
  · show (httpResolved env w).1 = ("admin").data
    rw [hhr]
  · show (httpResolved env w).2.1 = generate_password w.httpRand 17
    rw [hhr]
  · rw [hlog]
    simp [List.filter_cons, List.filter_nil, e1 _ _, e2 _ _]
  · rw [hlog]
    simp [List.filter_cons, List.filter_nil, e3 _ _, e4 _ _]

/-- Witness for c5_generation_defaults: no env vars, no secrets file,
working random device. -/
theorem c5_witness :
    (setup_credentials envNone worldGen).mqttUser = ("admin").data ∧
    (generate_password worldGen.mqttRand 17).length = 16 ∧
    ((setup_credentials envNone worldGen).stderrLog.filter (isBannerFor envKeyMQTT)).length
      = 1 :=
  ⟨(c5_generation_defaults envNone worldGen (Or.inl (by decide)) (Or.inl (by decide))
      (Or.inr (by decide)) (Or.inr (by decide))).1,
   (c5_generation_defaults envNone worldGen (Or.inl (by decide)) (Or.inl (by decide))
      (Or.inr (by decide)) (Or.inr (by decide))).2.2.1,
   (c5_generation_defaults envNone worldGen (Or.inl (by decide)) (Or.inl (by decide))
      (Or.inr (by decide)) (Or.inr (by decide))).2.2.2.2.2.2.2.2.1⟩

/-- The two branches of the htpasswd construction. -/
theorem makeHtpasswd_eq (user pass : CStr) (sw : RandWorld)
    (cf : CStr → CStr → Option CStr) :
    (∀ out, cf pass (("$6$").data ++ generate_salt sw 17) = some out →
      makeHtpasswd user pass sw cf = (user ++ ':' :: (out ++ ['\n'])).take 511) ∧
    (cf pass (("$6$").data ++ generate_salt sw 17) = none →
      makeHtpasswd user pass sw cf
        = (user ++ ':' :: ((("\x7bPLAIN\x7d").data) ++ pass ++ ['\n'])).take 255) := by
  constructor
  · intro out hout
    simp only [makeHtpasswd, hout]
  · intro hout
    simp only [makeHtpasswd, hout]

/-- C6: the htpasswd artifact is the single line user, colon, second
field, newline, where the second field is the crypt output - which, under
the SHA-512 crypt output contract and a working random device, matches the
regex of a dollar-6-dollar prefix, a 16-character salt over [./0-9A-Za-z]
and a non-empty hash - or, when crypt fails, the {PLAIN} fallback followed
by the plaintext secret. -/
theorem c6_htpasswd_shape (env : SetupEnv) (w : SetupWorld)
    (hs : w.saltRand.openOk = true) (hr : 0 < w.saltRand.readRet)
    (hlen : ((setup_credentials env w).httpPass).length ≤ 180)
    (hcrypt : ∀ out, w.cryptFn (setup_credentials env w).httpPass
        (("$6$").data ++ generate_salt w.saltRand 17) = some out →
      ∃ h, out = (("$6$").data ++ generate_salt w.saltRand 17) ++ '$' :: h ∧
        h ≠ [] ∧ h.all cryptAlpha = true ∧ h.length ≤ 426) :
    (∀ out, w.cryptFn (setup_credentials env w).httpPass
        (("$6$").data ++ generate_salt w.saltRand 17) = some out →
      (setup_credentials env w).htpasswd.content
        = (setup_credentials env w).httpUser ++ ':' :: (out ++ ['\n']) ∧
      isHashShape out = true) ∧
    (w.cryptFn (setup_credentials env w).httpPass
        (("$6$").data ++ generate_salt w.saltRand 17) = none →
      (setup_credentials env w).htpasswd.content
        = (setup_credentials env w).httpUser
          ++ ':' :: ((("\x7bPLAIN\x7d").data) ++ (setup_credentials env w).httpPass
            ++ ['\n'])) := by
  have husr : ((httpResolved env w).1).length ≤ 63 := httpResolved_user_short env w
  have hlen2 : ((httpResolved env w).2.1).length ≤ 180 := hlen
  have hsalt := generate_salt_spec w.saltRand hs hr
  constructor
  · intro out hout
    obtain ⟨h, hout_eq, hne, hall, hlen426⟩ := hcrypt out hout
    have hout2 : w.cryptFn (httpResolved env w).2.1
        (("$6$").data ++ generate_salt w.saltRand 17) = some out := hout
    have hcont := (makeHtpasswd_eq (httpResolved env w).1 (httpResolved env w).2.1
      w.saltRand w.cryptFn).1 out hout2
    have hol : out.length = 20 + h.length := by
      have h3 : (("$6$").data).length = 3 := by decide
      rw [hout_eq]
      simp only [List.length_append, List.length_cons, hsalt.1, h3]
      omega
    constructor
    · show makeHtpasswd (httpResolved env w).1 (httpResolved env w).2.1 w.saltRand w.cryptFn
        = (httpResolved env w).1 ++ ':' :: (out ++ ['\n'])
      rw [hcont]
      refine List.take_of_length_le ?_
      simp only [List.length_append, List.length_cons, List.length_nil]
      omega
    · have hnd : '$' ∉ generate_salt w.saltRand 17 := by
        intro hmem
        exact absurd (hsalt.2 '$' hmem) (by decide)
      have hform : out = '$' :: '6' :: '$' :: (generate_salt w.saltRand 17 ++ '$' :: h) := by
        rw [hout_eq]
        rw [show (("$6$").data ++ generate_salt w.saltRand 17) ++ '$' :: h
          = '$' :: '6' :: '$' :: (generate_salt w.saltRand 17 ++ '$' :: h) by
            simp [List.append_assoc]]
      have hsp := takeWhile_stop_split '$' (generate_salt w.saltRand 17) h hnd
      have hac : (generate_salt w.saltRand 17).all cryptAlpha = true := by
        rw [List.all_eq_true]
        intro c hc
        have hmem := hsalt.2 c hc
        have hcs : saltCharset.all cryptAlpha = true := by decide
        exact (List.all_eq_true.mp hcs) c hmem
      rw [hform]
      simp only [isHashShape, hsp.1, hsp.2]
      simp [hsalt.1, hac, hall, hne]
  · intro hout
    have hout2 : w.cryptFn (httpResolved env w).2.1
        (("$6$").data ++ generate_salt w.saltRand 17) = none := hout
    have hcont := (makeHtpasswd_eq (httpResolved env w).1 (httpResolved env w).2.1
      w.saltRand w.cryptFn).2 hout2
    show makeHtpasswd (httpResolved env w).1 (httpResolved env w).2.1 w.saltRand w.cryptFn
      = (httpResolved env w).1
        ++ ':' :: ((("\x7bPLAIN\x7d").data) ++ (httpResolved env w).2.1 ++ ['\n'])
    rw [hcont]
    refine List.take_of_length_le ?_
    have hpl : (("\x7bPLAIN\x7d").data).length = 7 := by decide
    simp only [List.length_append, List.length_cons, List.length_nil, hpl]
    omega

/-- Witness for c6_htpasswd_shape with a crypt stand-in satisfying the
contract: the artifact line carries a regex-matching hash. -/
theorem c6_witness :
    (setup_credentials envAlice worldCrypt).htpasswd.content
      = (setup_credentials envAlice worldCrypt).httpUser
        ++ ':' :: (((("$6$").data ++ generate_salt worldCrypt.saltRand 17)
          ++ '$' :: (("Ab2").data)) ++ ['\n']) ∧
    isHashShape ((("$6$").data ++ generate_salt worldCrypt.saltRand 17)
      ++ '$' :: (("Ab2").data)) = true :=
  (c6_htpasswd_shape envAlice worldCrypt rfl (by decide) (by decide)
    (by
      intro out hout
      refine ⟨(("Ab2").data), ?_, by decide, by decide, by decide⟩
      have hval : worldCrypt.cryptFn (setup_credentials envAlice worldCrypt).httpPass
          (("$6$").data ++ generate_salt worldCrypt.saltRand 17)
          = some ((("$6$").data ++ generate_salt worldCrypt.saltRand 17)
            ++ '$' :: (("Ab2").data)) := by decide
      rw [hval, Option.some.injEq] at hout
      exact hout.symm)).1
    ((("$6$").data ++ generate_salt worldCrypt.saltRand 17) ++ '$' :: (("Ab2").data))
    (by decide)

end MqBase
